import Mathlib

/-!
Verification development for the Sentinel_WS downloader (src/main.py).

The script is a single-file batch pipeline: it computes a rolling window of
recent acquisition dates, lists remote `.SAFE/` product folders per region
code, filters candidates by date, local-path existence and cloud-cover
percentage extracted from an XML metadata file, and recursively copies the
survivors.  The shallow embedding below models the date arithmetic of
`datetime`/`timedelta` with a proleptic Gregorian calendar, the driver's
decision logic as pure functions over an environment of oracles (listing
results, filesystem existence, fetch outcomes, parsed documents), and all
externally visible side effects (subprocess invocations, directory creation,
log records) as an explicit effect trace.
-/

/-- Gregorian leap-year test, as implemented by Python's `datetime`. -/
def isLeap (y : Nat) : Bool :=
  decide (y % 4 = 0 ∧ (y % 100 ≠ 0 ∨ y % 400 = 0))

/-- Count of leap years in `1..y`. -/
def leapsBefore (y : Nat) : Nat :=
  y / 4 - y / 100 + y / 400

theorem isLeap_true_iff (y : Nat) :
    isLeap y = true ↔ (y % 4 = 0 ∧ (y % 100 ≠ 0 ∨ y % 400 = 0)) := by
  unfold isLeap
  exact decide_eq_true_iff

theorem leapsBefore_succ (n : Nat) :
    leapsBefore (n + 1) = leapsBefore n + (if isLeap (n + 1) then 1 else 0) := by
  cases hL : isLeap (n + 1)
  · rw [if_neg (by simp [hL])]
    have h := (not_iff_not.mpr (isLeap_true_iff (n + 1))).mp (by simp [hL])
    simp only [leapsBefore]
    omega
  · rw [if_pos (by simp [hL])]
    have h := (isLeap_true_iff (n + 1)).mp hL
    simp only [leapsBefore]
    omega

/-- Number of days in month `m` of year `y` (months are 1-based). -/
def daysInMonth (y m : Nat) : Nat :=
  if m = 2 then (if isLeap y then 29 else 28)
  else if m = 4 ∨ m = 6 ∨ m = 9 ∨ m = 11 then 30 else 31

/-- Cumulative days before month `m` in a non-leap year. -/
def dbmBase (m : Nat) : Nat :=
  if m ≤ 1 then 0
  else if m = 2 then 31
  else if m = 3 then 59
  else if m = 4 then 90
  else if m = 5 then 120
  else if m = 6 then 151
  else if m = 7 then 181
  else if m = 8 then 212
  else if m = 9 then 243
  else if m = 10 then 273
  else if m = 11 then 304
  else 334

/-- Cumulative days before month `m` in year `y`. -/
def dbm (y m : Nat) : Nat :=
  dbmBase m + (if 3 ≤ m ∧ isLeap y then 1 else 0)

/-- A calendar date as carried by a Python `datetime` value (year, month, day).
The time-of-day component is irrelevant to the script: subtracting whole days
from a naive `datetime` and formatting with `%Y%m%d` only moves and reads the
calendar date. -/
structure Date where
  y : Nat
  m : Nat
  d : Nat
  deriving DecidableEq

/-- Validity of a date in `datetime`'s representable range (years 1..9999). -/
def Date.valid (x : Date) : Prop :=
  1 ≤ x.y ∧ x.y ≤ 9999 ∧ 1 ≤ x.m ∧ x.m ≤ 12 ∧ 1 ≤ x.d ∧ x.d ≤ daysInMonth x.y x.m

instance (x : Date) : Decidable x.valid := by
  unfold Date.valid; infer_instance

/-- Proleptic-Gregorian ordinal of a date; `ordD ⟨1,1,1⟩ = 1`, matching
Python's `date.toordinal`. -/
def ordD (x : Date) : Nat :=
  365 * (x.y - 1) + leapsBefore (x.y - 1) + dbm x.y x.m + x.d

/-- The calendar day before `x`, mirroring `datetime - timedelta(days=1)`. -/
def prevDay (x : Date) : Date :=
  if 2 ≤ x.d then ⟨x.y, x.m, x.d - 1⟩
  else if 2 ≤ x.m then ⟨x.y, x.m - 1, daysInMonth x.y (x.m - 1)⟩
  else ⟨x.y - 1, 12, 31⟩

/-- `i` calendar days before `x`, mirroring `datetime - timedelta(days=i)`. -/
def prevDays : Nat → Date → Date
  | 0, x => x
  | n + 1, x => prevDay (prevDays n x)

theorem dbm_step (y m : Nat) (h1 : 2 ≤ m) (h2 : m ≤ 12) :
    dbm y (m - 1) + daysInMonth y (m - 1) = dbm y m := by
  interval_cases m <;>
    cases hL : isLeap y <;>
      simp only [dbm, dbmBase, daysInMonth, hL] <;> norm_num

theorem daysInMonth_pos (y m : Nat) : 1 ≤ daysInMonth y m := by
  unfold daysInMonth; split_ifs <;> omega

theorem daysInMonth_le_31 (y m : Nat) : daysInMonth y m ≤ 31 := by
  unfold daysInMonth; split_ifs <;> omega

theorem valid_mk (a b c : Nat) :
    (Date.mk a b c).valid ↔
      1 ≤ a ∧ a ≤ 9999 ∧ 1 ≤ b ∧ b ≤ 12 ∧ 1 ≤ c ∧ c ≤ daysInMonth a b := Iff.rfl

theorem ordD_mk (a b c : Nat) :
    ordD ⟨a, b, c⟩ = 365 * (a - 1) + leapsBefore (a - 1) + dbm a b + c := rfl

theorem prevDay_ord (x : Date) (hv : x.valid) (h2 : 2 ≤ ordD x) :
    (prevDay x).valid ∧ ordD (prevDay x) + 1 = ordD x := by
  obtain ⟨hy1, hy2, hm1, hm2, hd1, hd2⟩ := hv
  have hord : ordD x = 365 * (x.y - 1) + leapsBefore (x.y - 1) + dbm x.y x.m + x.d := rfl
  unfold prevDay
  split_ifs with hd hm
  · constructor
    · rw [valid_mk]
      exact ⟨hy1, hy2, hm1, hm2, by omega, by omega⟩
    · rw [ordD_mk, hord]; omega
  · have hstep := dbm_step x.y x.m hm hm2
    constructor
    · rw [valid_mk]
      exact ⟨hy1, hy2, by omega, by omega, daysInMonth_pos _ _, le_refl _⟩
    · rw [ordD_mk, hord]; omega
  · have hm' : x.m = 1 := by omega
    have hd' : x.d = 1 := by omega
    have hdb : dbm x.y x.m = 0 := by
      rw [hm']; simp [dbm, dbmBase]
    have hy2' : 2 ≤ x.y := by
      rcases Nat.lt_or_ge x.y 2 with hlt | hge
      · exfalso
        have hy1' : x.y = 1 := by omega
        rw [hord, hdb, hd', hy1'] at h2
        simp only [leapsBefore] at h2
        omega
      · exact hge
    have hls := leapsBefore_succ (x.y - 2)
    have hix : x.y - 2 + 1 = x.y - 1 := by omega
    rw [hix] at hls
    have hdm12 : daysInMonth (x.y - 1) 12 = 31 := by
      norm_num [daysInMonth]
    constructor
    · rw [valid_mk, hdm12]
      exact ⟨by omega, by omega, by omega, by omega, by omega, by omega⟩
    · rw [ordD_mk, hord, hdb, hd']
      rw [show x.y - 1 - 1 = x.y - 2 from by omega]
      cases hL : isLeap (x.y - 1)
      · rw [hL] at hls
        simp only [Bool.false_eq_true, if_false, Nat.add_zero] at hls
        have hdb12 : dbm (x.y - 1) 12 = 334 := by simp [dbm, dbmBase, hL]
        rw [hdb12]
        omega
      · rw [hL] at hls
        simp only [if_true] at hls
        have hdb12 : dbm (x.y - 1) 12 = 335 := by simp [dbm, dbmBase, hL]
        rw [hdb12]
        omega

theorem prevDays_valid_ord (x : Date) (hv : x.valid) :
    ∀ i, i + 1 ≤ ordD x → (prevDays i x).valid ∧ ordD (prevDays i x) + i = ordD x := by
  intro i
  induction i with
  | zero => intro _; exact ⟨hv, by simp [prevDays]⟩
  | succ n ih =>
    intro h
    have hn := ih (by omega)
    have hstep := prevDay_ord (prevDays n x) hn.1 (by omega)
    exact ⟨hstep.1, by simp only [prevDays]; omega⟩

/-- The decimal digit characters used by `strftime`. -/
def digitChar : Nat → Char
  | 0 => '0'
  | 1 => '1'
  | 2 => '2'
  | 3 => '3'
  | 4 => '4'
  | 5 => '5'
  | 6 => '6'
  | 7 => '7'
  | 8 => '8'
  | _ => '9'

/-- Zero-padded `w`-digit decimal rendering of `n`, least significant digit last. -/
def pad : Nat → Nat → List Char
  | 0, _ => []
  | w + 1, n => pad w (n / 10) ++ [digitChar (n % 10)]

/-- Numeric value of a digit character (inverse of `digitChar` on digits). -/
def charVal (c : Char) : Nat := c.toNat - 48

/-- Read a digit string back as a number; left inverse of `pad` below. -/
def unpad (l : List Char) : Nat := l.foldl (fun a c => a * 10 + charVal c) 0

theorem charVal_digitChar : ∀ k, k < 10 → charVal (digitChar k) = k := by decide

theorem unpad_pad_four (n : Nat) : unpad (pad 4 n) = n % 10000 := by
  have h : ∀ k : Nat, charVal (digitChar (k % 10)) = k % 10 := fun k =>
    charVal_digitChar (k % 10) (Nat.mod_lt _ (by omega))
  simp only [pad, unpad, List.foldl, List.nil_append, List.append_assoc,
    List.cons_append, List.foldl_append, List.foldl_cons, List.foldl_nil, h]
  omega

theorem unpad_pad_two (n : Nat) : unpad (pad 2 n) = n % 100 := by
  have h : ∀ k : Nat, charVal (digitChar (k % 10)) = k % 10 := fun k =>
    charVal_digitChar (k % 10) (Nat.mod_lt _ (by omega))
  simp only [pad, unpad, List.foldl, List.nil_append, List.append_assoc,
    List.cons_append, List.foldl_append, List.foldl_cons, List.foldl_nil, h]
  omega

theorem pad_length : ∀ w n, (pad w n).length = w := by
  intro w
  induction w with
  | zero => intro n; rfl
  | succ k ih => intro n; simp [pad, ih]

theorem pad_four_inj (a b : Nat) (ha : a < 10000) (hb : b < 10000)
    (h : pad 4 a = pad 4 b) : a = b := by
  have h' := congrArg unpad h
  rwa [unpad_pad_four, unpad_pad_four, Nat.mod_eq_of_lt ha, Nat.mod_eq_of_lt hb] at h'

theorem pad_two_inj (a b : Nat) (ha : a < 100) (hb : b < 100)
    (h : pad 2 a = pad 2 b) : a = b := by
  have h' := congrArg unpad h
  rwa [unpad_pad_two, unpad_pad_two, Nat.mod_eq_of_lt ha, Nat.mod_eq_of_lt hb] at h'

/-- `strftime('%Y%m%d')` on a date: four-digit zero-padded year, two-digit
month and day, concatenated. -/
def fmtDate (x : Date) : String :=
  String.mk (pad 4 x.y ++ (pad 2 x.m ++ pad 2 x.d))

theorem fmtDate_length (x : Date) : (fmtDate x).length = 8 := by
  simp [fmtDate, String.length, pad_length]

theorem fmtDate_inj (a b : Date) (ha : a.valid) (hb : b.valid)
    (h : fmtDate a = fmtDate b) : a = b := by
  obtain ⟨ha1, ha2, ha3, ha4, ha5, ha6⟩ := ha
  obtain ⟨hb1, hb2, hb3, hb4, hb5, hb6⟩ := hb
  have h0 : pad 4 a.y ++ (pad 2 a.m ++ pad 2 a.d)
      = pad 4 b.y ++ (pad 2 b.m ++ pad 2 b.d) := congrArg String.data h
  have hy : pad 4 a.y = pad 4 b.y ∧ pad 2 a.m ++ pad 2 a.d = pad 2 b.m ++ pad 2 b.d :=
    List.append_inj h0 (by rw [pad_length, pad_length])
  have hmd : pad 2 a.m = pad 2 b.m ∧ pad 2 a.d = pad 2 b.d :=
    List.append_inj hy.2 (by rw [pad_length, pad_length])
  have hda := daysInMonth_le_31 a.y a.m
  have hdb' := daysInMonth_le_31 b.y b.m
  have e1 : a.y = b.y := pad_four_inj _ _ (by omega) (by omega) hy.1
  have e2 : a.m = b.m := pad_two_inj _ _ (by omega) (by omega) hmd.1
  have e3 : a.d = b.d := pad_two_inj _ _ (by omega) (by omega) hmd.2
  cases a; cases b
  simp_all

/-- `get_recent_dates` from src/main.py: the set of `YYYYMMDD` strings of the
last `num_days` days counting back from `today`, built as a set comprehension
`{ (today - timedelta(days=i)).strftime('%Y%m%d') for i in range(num_days) }`. -/
def get_recent_dates (today : Date) (num_days : Nat := 15) : Finset String :=
  (Finset.range num_days).image (fun i => fmtDate (prevDays i today))

/-- Claim C2: for every window size `N ≥ 1` and every reference clock reading
(a valid `datetime` date with at least `N` days of calendar before it), the
Date Window `get_recent_dates` returns a set of exactly `N` distinct `YYYYMMDD`
strings (each of length 8); the window contains the formatted current date
(its most recent element) and the formatted date `N - 1` days before the
current date (its oldest element), and every element is the formatted date
`i` days before the current date for some `i < N`. -/
theorem c2_date_window (today : Date) (N : Nat) (hv : today.valid)
    (hN : 1 ≤ N) (hord : N ≤ ordD today) :
    (get_recent_dates today N).card = N ∧
    fmtDate today ∈ get_recent_dates today N ∧
    fmtDate (prevDays (N - 1) today) ∈ get_recent_dates today N ∧
    ∀ s ∈ get_recent_dates today N,
      s.length = 8 ∧ ∃ i, i < N ∧ s = fmtDate (prevDays i today) := by
  have hval : ∀ i, i < N → (prevDays i today).valid ∧ ordD (prevDays i today) + i = ordD today :=
    fun i hi => prevDays_valid_ord today hv i (by omega)
  have hinj : Set.InjOn (fun i => fmtDate (prevDays i today)) ↑(Finset.range N) := by
    intro i hi j hj hij
    simp only [Finset.coe_range, Set.mem_Iio] at hi hj
    have h1 := hval i hi
    have h2 := hval j hj
    have := fmtDate_inj _ _ h1.1 h2.1 hij
    have hoo : ordD (prevDays i today) = ordD (prevDays j today) := by rw [this]
    omega
  refine ⟨?_, ?_, ?_, ?_⟩
  · rw [get_recent_dates, Finset.card_image_of_injOn hinj, Finset.card_range]
  · rw [get_recent_dates]
    exact Finset.mem_image.mpr ⟨0, Finset.mem_range.mpr (by omega), rfl⟩
  · rw [get_recent_dates]
    exact Finset.mem_image.mpr ⟨N - 1, Finset.mem_range.mpr (by omega), rfl⟩
  · intro s hs
    rw [get_recent_dates] at hs
    obtain ⟨i, hi, rfl⟩ := Finset.mem_image.mp hs
    exact ⟨fmtDate_length _, i, Finset.mem_range.mp hi, rfl⟩

/-- Witness for C2 at a concrete clock reading (2025-10-12) and the script's
window size 15. -/
theorem c2_date_window_witness :
    (get_recent_dates ⟨2025, 10, 12⟩ 15).card = 15 ∧
    fmtDate ⟨2025, 10, 12⟩ ∈ get_recent_dates ⟨2025, 10, 12⟩ 15 :=
  ⟨(c2_date_window ⟨2025, 10, 12⟩ 15 (by decide) (by decide) (by decide)).1,
   (c2_date_window ⟨2025, 10, 12⟩ 15 (by decide) (by decide) (by decide)).2.1⟩

mutual
inductive Xml where
  | node : String → Option String → XmlForest → Xml
inductive XmlForest where
  | nil : XmlForest
  | cons : Xml → XmlForest → XmlForest
end

def Xml.text : Xml → Option String
  | .node _ t _ => t

mutual
def findNode (t : String) : Xml → Option Xml
  | .node tg tx cs =>
    if tg = t then some (.node tg tx cs) else findForest t cs
def findForest (t : String) : XmlForest → Option Xml
  | .nil => none
  | .cons x rest =>
    match findNode t x with
    | some e => some e
    | none => findForest t rest
end

def findDesc (root : Xml) (t : String) : Option Xml :=
  match root with
  | .node _ _ cs => findForest t cs

def stripSlashes (s : String) : String :=
  String.mk (((s.data.dropWhile (fun c => c = '/')).reverse.dropWhile
    (fun c => c = '/')).reverse)

def basename (s : String) : String :=
  String.mk ((s.data.reverse.takeWhile (fun c => c ≠ '/')).reverse)

def nomePasta (pasta_uri : String) : String :=
  basename (stripSlashes pasta_uri)

def matchDateAt (l : List Char) : Option (List Char) :=
  match l with
  | '_' :: rest =>
    let ds := rest.take 8
    if ds.length = 8 ∧ ds.all Char.isDigit then
      match rest.drop 8 with
      | 'T' :: _ => some ds
      | _ => none
    else none
  | _ => none

def searchDate : List Char → Option (List Char)
  | [] => none
  | c :: rest =>
    match matchDateAt (c :: rest) with
    | some ds => some ds
    | none => searchDate rest

def findDate (nome : String) : Option String :=
  (searchDate nome.data).map String.mk

def headMatches : List Char → List Char → Bool
  | _, [] => true
  | [], _ :: _ => false
  | c :: cs, p :: ps => c = p && headMatches cs ps

def containsFrom : List Char → List Char → Bool
  | [], p => p.isEmpty
  | c :: rest, p => headMatches (c :: rest) p || containsFrom rest p

def strContains (s pat : String) : Bool :=
  containsFrom s.data pat.data

/-- Python exception kinds that escape the `try` bodies of src/main.py:
`typeError`/`valueError` from `float(...)` on a missing or unparsable text
payload, and `attributeError` from the broken `CalledProcessError` handlers —
`subprocess.run` is called with `text=True`, so `e.stderr` is a `str` and the
handlers' `e.stderr.decode(...)` raises before any of their logging or
`return` statements run. -/
inductive PyExc where
  | typeError
  | valueError
  | attributeError
  deriving DecidableEq

/-- Result of one `gcloud storage ls` invocation. -/
inductive ListResult where
  | ok : String → ListResult
  | err : String → ListResult

/-- Externally visible events of a run, in order: subprocess invocations,
directory creation, temp-file removal and log records (structured by the
log site in src/main.py that emits them).  `logListWarn`, `logNoneFoundAt`
and `logFetchFail` correspond to the log lines inside the two broken
`CalledProcessError` handlers; those lines are unreachable (the handlers
raise `AttributeError` first), so these effects are emitted on no path and
the theorems assert their absence. -/
inductive Effect where
  | makedirs : String → Effect
  | checkGcloud : Effect
  | logGcloudFound : Effect
  | logGcloudMissing : Effect
  | logSearchWindow : Effect
  | logRegion : String → String → String → Effect
  | logListing : String → Effect
  | listCmd : String → Effect
  | logFoundCount : Nat → Effect
  | logNoneFound : Effect
  | logListWarn : String → String → Effect
  | logNoneFoundAt : String → Effect
  | logFound : String → String → Effect
  | logSkipExists : String → Effect
  | logChecking : String → Effect
  | fetchMetaCmd : String → Effect
  | logCoverFound : String → ℚ → Effect
  | logNoTagFound : Effect
  | logFetchFail : String → String → Effect
  | logParseFail : Effect
  | removeTemp : Effect
  | logCoverUnknown : String → Effect
  | logAcceptCover : ℚ → Effect
  | copyCmd : String → String → Effect
  | logCopyDone : String → String → Effect
  | logCopyFail : String → Effect
  | logRejectCover : String → ℚ → Effect
  | logCandidateError : String → Effect
  | logFinished : Effect
  deriving DecidableEq

/-- The world the script runs against: oracles for every external
interaction. Cloud-cover values are modelled as exact rationals; every value
involved in the script's threshold comparison is a finite IEEE double, i.e.
a rational, and the comparison agrees with the rational one. -/
structure Env where
  gcloudAvailable : Bool
  today : Date
  listing : String → ListResult
  fsExists : String → Bool
  fetchOk : String → Bool
  fetchStderr : String → String
  fetchFailLeavesFile : String → Bool
  parsedDoc : String → Option Xml
  floatOf : String → Option ℚ
  copyOk : String → Bool
  copyStderr : String → String

def DIRETORIO_OUTPUT_BASE : String := "Output_GCS"

def BUCKET_BASE_URI : String := "gs://gcp-public-data-sentinel-2/L2/tiles"

/-- A region code: an entry of `codigos`, a 3-element list indexed 0/1/2. -/
structure Codigo where
  c0 : String
  c1 : String
  c2 : String
  deriving DecidableEq

/-- The configured region codes from src/main.py. -/
def codigos : List Codigo :=
  [⟨"23", "K", "NQ"⟩, ⟨"23", "K", "NR"⟩, ⟨"23", "K", "PR"⟩, ⟨"23", "K", "QQ"⟩,
   ⟨"23", "K", "QR"⟩, ⟨"23", "K", "QS"⟩, ⟨"23", "K", "RQ"⟩, ⟨"23", "K", "RR"⟩,
   ⟨"23", "K", "RS"⟩, ⟨"23", "K", "RT"⟩, ⟨"23", "K", "KP"⟩,
   ⟨"24", "K", "TA"⟩, ⟨"24", "K", "TB"⟩, ⟨"24", "K", "TC"⟩, ⟨"24", "K", "TV"⟩]

def uriBase (cg : Codigo) : String :=
  BUCKET_BASE_URI ++ "/" ++ cg.c0 ++ "/" ++ cg.c1 ++ "/" ++ cg.c2 ++ "/"

/-- `caminho_local_base = os.path.join(DIRETORIO_OUTPUT_BASE, codigo[0],
codigo[1], codigo[2])` (POSIX join). -/
def basePath (cg : Codigo) : String :=
  DIRETORIO_OUTPUT_BASE ++ "/" ++ cg.c0 ++ "/" ++ cg.c1 ++ "/" ++ cg.c2

/-- `caminho_local_final = os.path.join(caminho_local_base, nome_pasta)`. -/
def caminhoLocalFinal (cg : Codigo) (pasta_uri : String) : String :=
  basePath cg ++ "/" ++ nomePasta pasta_uri

def metadata_filename : String := "MTD_MSIL2A.xml"

/-- The metadata tag names probed by `get_cloud_cover`, in priority order. -/
def cloud_tags_to_try : List String :=
  ["Cloud_Coverage_Assessment",
   "CLOUDY_PIXEL_OVER_LAND_PERCENTAGE",
   "CLOUDY_PIXEL_PERCENTAGE"]

/-- The `for tag_name in cloud_tags_to_try` loop: first tag of the priority
list found anywhere in the document, with its element. -/
def firstTagLoop (root : Xml) : List String → Option (String × Xml)
  | [] => none
  | t :: rest =>
    match findDesc root t with
    | some el => some (t, el)
    | none => firstTagLoop root rest

/-- Outcome of the `try` body of `get_cloud_cover` (after the two `except`
clauses): the returned value or an uncaught exception, the emitted effects,
and whether the scratch copy of the metadata file exists when the `finally`
block is entered.  On a failed fetch the `CalledProcessError` handler itself
raises `AttributeError` (`str` has no `.decode`) before its `logging.error`
and `return None` lines, so that branch produces an uncaught exception and no
fetch-failure log. -/
structure CloudBody where
  result : Except PyExc (Option ℚ)
  effects : List Effect
  tempAfter : Bool

def cloudCoverBody (env : Env) (safe_folder_uri : String) : CloudBody :=
  let metadata_file_uri := safe_folder_uri ++ metadata_filename
  let pre : List Effect := [.logChecking metadata_file_uri, .fetchMetaCmd metadata_file_uri]
  if env.fetchOk metadata_file_uri then
    match env.parsedDoc metadata_file_uri with
    | none => ⟨.ok none, pre ++ [.logParseFail], true⟩
    | some root =>
      match firstTagLoop root cloud_tags_to_try with
      | none => ⟨.ok none, pre ++ [.logNoTagFound], true⟩
      | some (tag, el) =>
        match el.text with
        | none => ⟨.error .typeError, pre, true⟩
        | some txt =>
          match env.floatOf txt with
          | none => ⟨.error .valueError, pre, true⟩
          | some c => ⟨.ok (some c), pre ++ [.logCoverFound tag c], true⟩
  else
    ⟨.error .attributeError, pre, env.fetchFailLeavesFile metadata_file_uri⟩

/-- The `finally` block: `if os.path.exists(temp): os.remove(temp)`. -/
def runFinally (tempAfter : Bool) : Bool :=
  if tempAfter then false else tempAfter

/-- Overall observable outcome of one `get_cloud_cover` call. -/
structure FetchResult where
  result : Except PyExc (Option ℚ)
  effects : List Effect
  tempExists : Bool

/-- `get_cloud_cover` from src/main.py: fetch the metadata file, parse it,
probe the priority tags, always removing the scratch file in `finally`. -/
def get_cloud_cover (env : Env) (safe_folder_uri : String) : FetchResult :=
  let b := cloudCoverBody env safe_folder_uri
  ⟨b.result,
   b.effects ++ (if b.tempAfter then [.removeTemp] else []),
   runFinally b.tempAfter⟩

/-- `download_folder` from src/main.py (`gcloud storage cp -r`, logging the
outcome; its own exceptions are caught inside). `os.path.normpath` is the
identity on the already-normalised relative paths this script constructs. -/
def download_folder (env : Env) (gcs_folder_uri local_destination : String) : List Effect :=
  [.copyCmd gcs_folder_uri local_destination] ++
  (if env.copyOk gcs_folder_uri then [.logCopyDone gcs_folder_uri local_destination]
   else [.logCopyFail gcs_folder_uri])

/-- `get_available_safe_folders` from src/main.py: list everything under
`uri_base` and keep entries ending in `.SAFE/`.  On a non-zero listing exit
the `CalledProcessError` handler immediately raises `AttributeError`
(`e.stderr` is a `str` because of `text=True`, and `str` has no `.decode`),
before the benign "Bucket Brigade" test, the warning/info logs and the
`return []` — those handler lines are unreachable, so the error branch
produces an uncaught exception and no further effects.  Returns the outcome
together with the emitted effects. -/
def get_available_safe_folders (env : Env) (uri_base : String) :
    Except PyExc (List String) × List Effect :=
  let pre : List Effect := [.logListing uri_base, .listCmd uri_base]
  match env.listing uri_base with
  | .ok stdout =>
    let all_items := stdout.trim.splitOn "\n"
    let safe_folders := all_items.filter (fun item => item.endsWith ".SAFE/")
    (.ok safe_folders,
     pre ++ (if safe_folders.isEmpty then [.logNoneFound]
             else [.logFoundCount safe_folders.length]))
  | .err _ =>
    (.error .attributeError, pre)

/-- The folders the driver iterates for one region code (none when the
listing raised). -/
def folders (env : Env) (cg : Codigo) : List String :=
  match (get_available_safe_folders env (uriBase cg)).1 with
  | .ok l => l
  | .error _ => []

/-- The body of `for pasta_uri in pastas_disponiveis` in `main`, including
its `try`/`except`: all effects emitted while processing one candidate
folder. An exception escaping `get_cloud_cover` is caught by the `except`
clause, which logs and moves on. -/
def candidateStep (env : Env) (cg : Codigo) (pasta_uri : String) : List Effect :=
  let nome_pasta := nomePasta pasta_uri
  match findDate nome_pasta with
  | none => []
  | some data_da_pasta =>
    if data_da_pasta ∈ get_recent_dates env.today 15 then
      let caminho_local_base := basePath cg
      let caminho_local_final := caminho_local_base ++ "/" ++ nome_pasta
      [.logFound data_da_pasta pasta_uri, .makedirs caminho_local_base] ++
      (if env.fsExists caminho_local_final then [.logSkipExists caminho_local_final]
       else
        let fr := get_cloud_cover env pasta_uri
        fr.effects ++
        (match fr.result with
         | .error _ => [.logCandidateError pasta_uri]
         | .ok none => [.logCoverUnknown nome_pasta]
         | .ok (some cloud_cover_percentage) =>
           if cloud_cover_percentage ≤ 30 then
             [.logAcceptCover cloud_cover_percentage] ++
             download_folder env pasta_uri caminho_local_base
           else [.logRejectCover nome_pasta cloud_cover_percentage]))
    else []

/-- One iteration of `for codigo in codigos` in `main`: its effects, plus the
exception escaping `get_available_safe_folders`, if any — the call at
src/main.py line 177 is not inside any `try`, so such an exception propagates
out of `main`. -/
def regionStep (env : Env) (cg : Codigo) : List Effect × Option PyExc :=
  match get_available_safe_folders env (uriBase cg) with
  | (.error exc, listEff) =>
    ([.logRegion cg.c0 cg.c1 cg.c2] ++ listEff, some exc)
  | (.ok pastas, listEff) =>
    ([.logRegion cg.c0 cg.c1 cg.c2] ++ listEff ++
      (pastas.map (candidateStep env cg)).flatten, none)

/-- The region loop of `main`: regions are processed in order until one of
them raises, in which case the uncaught exception aborts the loop (and the
run: no completion log). -/
def regionLoop (env : Env) : List Codigo → List Effect
  | [] => [.logFinished]
  | cg :: rest =>
    (regionStep env cg).1 ++
    (match (regionStep env cg).2 with
     | some _ => []
     | none => regionLoop env rest)

/-- `main()` from src/main.py as an effect trace (truncated where an uncaught
exception aborts the run). -/
def mainTrace (env : Env) : List Effect :=
  [.checkGcloud] ++
  (if env.gcloudAvailable then
    [.logGcloudFound, .logSearchWindow] ++ regionLoop env codigos
   else [.logGcloudMissing])

/-- Effects performed at module import time, before `main` is entered:
`setup_logging()` creates the `logs` directory and the module body creates
the output root. -/
def moduleLoadTrace : List Effect :=
  [.makedirs "logs", .makedirs "Output_GCS"]

/-- The whole program: module import effects, then `main()`. -/
def programTrace (env : Env) : List Effect :=
  moduleLoadTrace ++ mainTrace env

theorem copy_notin_fetch (env : Env) (u s t : String) :
    Effect.copyCmd s t ∉ (get_cloud_cover env u).effects := by
  simp only [get_cloud_cover, cloudCoverBody]
  repeat' split
  all_goals simp

theorem makedirs_notin_fetch (env : Env) (u p : String) :
    Effect.makedirs p ∉ (get_cloud_cover env u).effects := by
  simp only [get_cloud_cover, cloudCoverBody]
  repeat' split
  all_goals simp

theorem copy_in_candidateStep_iff (env : Env) (cg : Codigo) (pasta s t : String) :
    Effect.copyCmd s t ∈ candidateStep env cg pasta ↔
      (s = pasta ∧ t = basePath cg ∧
       ∃ d c, findDate (nomePasta pasta) = some d ∧
         d ∈ get_recent_dates env.today 15 ∧
         env.fsExists (caminhoLocalFinal cg pasta) = false ∧
         (get_cloud_cover env pasta).result = .ok (some c) ∧ c ≤ 30) := by
  simp only [candidateStep, caminhoLocalFinal]
  rcases hfd : findDate (nomePasta pasta) with _ | d
  · simp
  · dsimp only
    by_cases hin : d ∈ get_recent_dates env.today 15
    · rw [if_pos hin]
      cases hex : env.fsExists (basePath cg ++ "/" ++ nomePasta pasta)
      · rcases hr : (get_cloud_cover env pasta).result with e | oc
        · dsimp only
          simp [copy_notin_fetch env pasta s t]
        · rcases oc with _ | c
          · dsimp only
            simp [copy_notin_fetch env pasta s t]
          · dsimp only
            by_cases hc : c ≤ 30
            · rw [if_pos hc]
              cases hco : env.copyOk pasta <;>
                simp [download_folder, hco, copy_notin_fetch env pasta s t, hin, hc]
            · rw [if_neg hc]
              simp [copy_notin_fetch env pasta s t, hc]
      · simp
    · rw [if_neg hin]
      simp [hin]

theorem copy_notin_listEffects (env : Env) (u s t : String) :
    Effect.copyCmd s t ∉ (get_available_safe_folders env u).2 := by
  simp only [get_available_safe_folders]
  repeat' split
  all_goals simp

theorem mem_regionStep_iff (env : Env) (cg : Codigo) (e : Effect) :
    e ∈ (regionStep env cg).1 ↔
      (e = .logRegion cg.c0 cg.c1 cg.c2 ∨
       e ∈ (get_available_safe_folders env (uriBase cg)).2 ∨
       ∃ pasta ∈ folders env cg, e ∈ candidateStep env cg pasta) := by
  unfold regionStep folders
  rcases hx : get_available_safe_folders env (uriBase cg) with ⟨res, listEff⟩
  rcases res with exc | pastas
  · simp
  · simp only [List.mem_append, List.mem_cons, List.not_mem_nil, or_false,
      List.mem_flatten, List.mem_map]
    aesop

theorem mem_regionLoop_cases (env : Env) (e : Effect) :
    ∀ l : List Codigo, e ∈ regionLoop env l →
      e = .logFinished ∨ ∃ cg ∈ l, e ∈ (regionStep env cg).1 := by
  intro l
  induction l with
  | nil =>
    intro h
    simp only [regionLoop, List.mem_singleton] at h
    exact Or.inl h
  | cons cg rest ih =>
    intro h
    simp only [regionLoop, List.mem_append] at h
    rcases h with h | h
    · exact Or.inr ⟨cg, by simp, h⟩
    · rcases hx : (regionStep env cg).2 with _ | exc
      · rw [hx] at h
        dsimp only at h
        rcases ih h with h1 | ⟨cg', hcg', he'⟩
        · exact Or.inl h1
        · exact Or.inr ⟨cg', by simp [hcg'], he'⟩
      · rw [hx] at h
        simp at h

theorem mem_mainTrace_cases (env : Env) (e : Effect) (h : e ∈ mainTrace env) :
    e = .checkGcloud ∨ e = .logGcloudFound ∨ e = .logSearchWindow ∨
    e = .logGcloudMissing ∨ e = .logFinished ∨
    ∃ cg ∈ codigos, e ∈ (regionStep env cg).1 := by
  by_cases hg : env.gcloudAvailable = true
  · simp only [mainTrace, hg, if_true, List.mem_append, List.mem_cons,
      List.not_mem_nil, or_false] at h
    rcases h with h | (h | h) | h
    · exact Or.inl h
    · exact Or.inr (Or.inl h)
    · exact Or.inr (Or.inr (Or.inl h))
    · rcases mem_regionLoop_cases env e codigos h with h1 | h2
      · exact Or.inr (Or.inr (Or.inr (Or.inr (Or.inl h1))))
      · exact Or.inr (Or.inr (Or.inr (Or.inr (Or.inr h2))))
  · simp only [Bool.not_eq_true] at hg
    simp only [mainTrace, hg, Bool.false_eq_true, if_false, List.mem_append,
      List.mem_cons, List.mem_singleton, List.not_mem_nil, or_false] at h
    tauto

/-- Claim C8: after every `get_cloud_cover` invocation, on every exit path
(value returned, fetch failure, parse failure, tag not found, or an uncaught
exception from `float(...)`), the scratch copy of the metadata file no longer
exists: the `finally` block removes it whenever it exists. -/
theorem c8_scratch_cleanup (env : Env) (safe_folder_uri : String) :
    (get_cloud_cover env safe_folder_uri).tempExists = false := by
  simp only [get_cloud_cover, runFinally]
  cases (cloudCoverBody env safe_folder_uri).tempAfter <;> simp

/-- Claim C6: when several candidate cloud-cover tags are present in one
metadata document, `get_cloud_cover` returns the value of the first tag of the
fixed priority order `Cloud_Coverage_Assessment`,
`CLOUDY_PIXEL_OVER_LAND_PERCENTAGE`, `CLOUDY_PIXEL_PERCENTAGE` that is found,
each searched anywhere in the document (`.//` descendant search), not at a
fixed nesting level. -/
theorem c6_tag_priority (env : Env) (safe_folder_uri : String) (root : Xml)
    (hf : env.fetchOk (safe_folder_uri ++ metadata_filename) = true)
    (hp : env.parsedDoc (safe_folder_uri ++ metadata_filename) = some root) :
    (∀ el txt c, findDesc root "Cloud_Coverage_Assessment" = some el →
      el.text = some txt → env.floatOf txt = some c →
      (get_cloud_cover env safe_folder_uri).result = .ok (some c)) ∧
    (findDesc root "Cloud_Coverage_Assessment" = none →
      ∀ el txt c, findDesc root "CLOUDY_PIXEL_OVER_LAND_PERCENTAGE" = some el →
      el.text = some txt → env.floatOf txt = some c →
      (get_cloud_cover env safe_folder_uri).result = .ok (some c)) ∧
    (findDesc root "Cloud_Coverage_Assessment" = none →
      findDesc root "CLOUDY_PIXEL_OVER_LAND_PERCENTAGE" = none →
      ∀ el txt c, findDesc root "CLOUDY_PIXEL_PERCENTAGE" = some el →
      el.text = some txt → env.floatOf txt = some c →
      (get_cloud_cover env safe_folder_uri).result = .ok (some c)) := by
  refine ⟨?_, ?_, ?_⟩
  · intro el txt c h1 ht hc
    simp [get_cloud_cover, cloudCoverBody, hf, hp, firstTagLoop, cloud_tags_to_try,
      h1, ht, hc]
  · intro h0 el txt c h1 ht hc
    simp [get_cloud_cover, cloudCoverBody, hf, hp, firstTagLoop, cloud_tags_to_try,
      h0, h1, ht, hc]
  · intro h0 h0' el txt c h1 ht hc
    simp [get_cloud_cover, cloudCoverBody, hf, hp, firstTagLoop, cloud_tags_to_try,
      h0, h0', h1, ht, hc]

/-- Claim C1: a candidate that reaches the cloud-cover stage (date in the
window, local destination absent, cover value returned) is accepted — the
Bulk Copier invoked on it — if and only if the measured cover is `≤ 30.0`;
when it exceeds the threshold the rejection is logged with the measured
percentage. In particular a cover of exactly 30.0 is accepted and one of
30.1 is rejected (see the witness). -/
theorem c1_cloud_gate (env : Env) (cg : Codigo) (pasta_uri d : String) (c : ℚ)
    (h1 : findDate (nomePasta pasta_uri) = some d)
    (h2 : d ∈ get_recent_dates env.today 15)
    (h3 : env.fsExists (caminhoLocalFinal cg pasta_uri) = false)
    (h4 : (get_cloud_cover env pasta_uri).result = .ok (some c)) :
    (Effect.copyCmd pasta_uri (basePath cg) ∈ candidateStep env cg pasta_uri ↔ c ≤ 30) ∧
    (¬ c ≤ 30 →
      Effect.logRejectCover (nomePasta pasta_uri) c ∈ candidateStep env cg pasta_uri) := by
  constructor
  · rw [copy_in_candidateStep_iff]
    constructor
    · rintro ⟨-, -, d', c', hfd', hin', hex', hr', hc'⟩
      rw [h4] at hr'
      simp only [Except.ok.injEq, Option.some.injEq] at hr'
      rwa [hr']
    · intro hc
      exact ⟨rfl, rfl, d, c, h1, h2, h3, h4, hc⟩
  · intro hc
    simp only [candidateStep, caminhoLocalFinal] at *
    rw [h1]
    dsimp only
    rw [if_pos h2, h3, h4]
    dsimp only
    rw [if_neg hc]
    simp

/-- Claim C4: a listed folder entry whose name yields no `_(\d{8})T` match, or
whose extracted date string is not in the Date Window, is skipped outright:
its candidate step emits no effects at all — in particular no Metadata
Fetcher call, no Bulk Copier call, and no error. -/
theorem c4_date_filter_skip (env : Env) (cg : Codigo) (pasta_uri : String)
    (h : findDate (nomePasta pasta_uri) = none ∨
      ∃ d, findDate (nomePasta pasta_uri) = some d ∧
        d ∉ get_recent_dates env.today 15) :
    candidateStep env cg pasta_uri = [] := by
  rcases h with h | ⟨d, hfd, hnin⟩
  · simp [candidateStep, h]
  · simp [candidateStep, hfd, hnin]

/-- Claim C9 (amended): the `<output-root>/<zone>/<band>/<square>` directory is
ensured via `makedirs` for every candidate whose derived date lies in the Date
Window — before the local-existence check and the cloud-cover gate, hence
regardless of acceptance; candidates skipped at the date stage leave the local
output tree untouched. -/
theorem c9_mkdir_on_date_match (env : Env) (cg : Codigo) (pasta_uri : String) :
    (∃ p, Effect.makedirs p ∈ candidateStep env cg pasta_uri) ↔
      (∃ d, findDate (nomePasta pasta_uri) = some d ∧
        d ∈ get_recent_dates env.today 15) := by
  constructor
  · rintro ⟨p, hp⟩
    rcases hfd : findDate (nomePasta pasta_uri) with _ | d
    · simp [candidateStep, hfd] at hp
    · by_cases hin : d ∈ get_recent_dates env.today 15
      · exact ⟨d, rfl, hin⟩
      · simp [candidateStep, hfd, hin] at hp
  · rintro ⟨d, hfd, hin⟩
    refine ⟨basePath cg, ?_⟩
    simp only [candidateStep]
    rw [hfd]
    dsimp only
    rw [if_pos hin]
    simp

/-- Claim C10: at module load — before the gcloud availability check — the
program unconditionally creates the `logs` directory and the `Output_GCS`
output root; a run that aborts because gcloud is missing still performs
exactly these two directory creations. -/
theorem c10_module_load_effects (env : Env) :
    ((programTrace env).take 3 =
      [.makedirs "logs", .makedirs "Output_GCS", .checkGcloud]) ∧
    (env.gcloudAvailable = false →
      programTrace env =
        [.makedirs "logs", .makedirs "Output_GCS", .checkGcloud,
         .logGcloudMissing]) := by
  refine ⟨rfl, ?_⟩
  intro h
  simp [programTrace, moduleLoadTrace, mainTrace, h]

theorem folders_congr (env1 env2 : Env) (h : env2.listing = env1.listing)
    (cg : Codigo) : folders env2 cg = folders env1 cg := by
  unfold folders get_available_safe_folders
  rw [h]

theorem get_cloud_cover_result_congr (env1 env2 : Env) (u : String)
    (hfok : env2.fetchOk = env1.fetchOk) (hdoc : env2.parsedDoc = env1.parsedDoc)
    (hfloat : env2.floatOf = env1.floatOf) :
    (get_cloud_cover env2 u).result = (get_cloud_cover env1 u).result := by
  simp only [get_cloud_cover, cloudCoverBody, hfok, hdoc, hfloat]
  repeat' split
  all_goals rfl

/-- Claim C3: a candidate whose local destination path exists is skipped with
an info log, invoking neither the Metadata Fetcher nor the Bulk Copier (its
trace is exactly the found-log, the makedirs of the region base and the skip
log); consequently a second full run against unchanged remote listings,
metadata and clock, over a local tree containing every folder the first run
copied, performs zero copy invocations. -/
theorem c3_idempotent_skip (env1 env2 : Env)
    (hlist : env2.listing = env1.listing)
    (htoday : env2.today = env1.today)
    (hfok : env2.fetchOk = env1.fetchOk)
    (hdoc : env2.parsedDoc = env1.parsedDoc)
    (hfloat : env2.floatOf = env1.floatOf)
    (hmono : ∀ p, env1.fsExists p = true → env2.fsExists p = true)
    (hpop : ∀ cg ∈ codigos, ∀ pasta ∈ folders env1 cg, ∀ s t,
      Effect.copyCmd s t ∈ candidateStep env1 cg pasta →
      env2.fsExists (caminhoLocalFinal cg pasta) = true) :
    (∀ cg pasta d, findDate (nomePasta pasta) = some d →
      d ∈ get_recent_dates env2.today 15 →
      env2.fsExists (caminhoLocalFinal cg pasta) = true →
      candidateStep env2 cg pasta =
        [.logFound d pasta, .makedirs (basePath cg),
         .logSkipExists (caminhoLocalFinal cg pasta)]) ∧
    (∀ s t, Effect.copyCmd s t ∉ mainTrace env2) := by
  constructor
  · intro cg pasta d hfd hin hex
    simp only [candidateStep, caminhoLocalFinal] at *
    rw [hfd]
    dsimp only
    rw [if_pos hin, hex]
    simp
  · intro s t hmem
    rcases mem_mainTrace_cases env2 _ hmem with h | h | h | h | h | ⟨cg, hcg, hreg⟩
    · simp at h
    · simp at h
    · simp at h
    · simp at h
    · simp at h
    · rw [mem_regionStep_iff] at hreg
      rcases hreg with h | h | ⟨pasta, hp, hc⟩
      · simp at h
      · exact copy_notin_listEffects env2 _ s t h
      · rw [copy_in_candidateStep_iff] at hc
        obtain ⟨-, -, d, c, hfd, hin, hex, hres, hcc⟩ := hc
        have hp1 : pasta ∈ folders env1 cg := by
          rwa [folders_congr env1 env2 hlist] at hp
        have hex1 : env1.fsExists (caminhoLocalFinal cg pasta) = false := by
          cases hq : env1.fsExists (caminhoLocalFinal cg pasta)
          · rfl
          · rw [hmono _ hq] at hex
            cases hex
        have hres1 : (get_cloud_cover env1 pasta).result = .ok (some c) := by
          rw [← get_cloud_cover_result_congr env1 env2 pasta hfok hdoc hfloat]
          exact hres
        have hin1 : d ∈ get_recent_dates env1.today 15 := by
          rwa [htoday] at hin
        have hcopy1 : Effect.copyCmd pasta (basePath cg) ∈ candidateStep env1 cg pasta := by
          rw [copy_in_candidateStep_iff]
          exact ⟨rfl, rfl, d, c, hfd, hin1, hex1, hres1, hcc⟩
        have hex2 := hpop cg hcg pasta hp1 pasta (basePath cg) hcopy1
        rw [hex2] at hex
        cases hex

/-- A metadata document whose cloud-cover tag sits two levels deep (as in the
real `MTD_MSIL2A.xml`), carrying text `v`, plus a decoy lower-priority tag at
the top level. -/
def docCover (v : String) : Xml :=
  .node "n1:Level-2A_User_Product" none
    (.cons (.node "n1:Quality_Indicators_Info" none
      (.cons (.node "Cloud_Coverage_Assessment" (some v) .nil) .nil))
    (.cons (.node "CLOUDY_PIXEL_PERCENTAGE" (some "77.0") .nil) .nil))

/-- A concrete world for witnesses: clock 2025-10-12, empty filesystem,
successful fetches, a document reporting 30.0% cover. -/
def envBase : Env where
  gcloudAvailable := true
  today := ⟨2025, 10, 12⟩
  listing := fun _ => .err "boom"
  fsExists := fun _ => false
  fetchOk := fun _ => true
  fetchStderr := fun _ => ""
  fetchFailLeavesFile := fun _ => false
  parsedDoc := fun _ => some (docCover "30.0")
  floatOf := fun s =>
    if s = "30.0" then some 30
    else if s = "30.1" then some (301 / 10)
    else if s = "99.0" then some 99
    else none
  copyOk := fun _ => true
  copyStderr := fun _ => ""

/-- Same world, but the metadata reports 30.1% cover. -/
def envReject : Env := { envBase with parsedDoc := fun _ => some (docCover "30.1") }

/-- Same world, but the metadata reports 99.0% cover. -/
def envHigh : Env := { envBase with parsedDoc := fun _ => some (docCover "99.0") }

/-- Same world, but the metadata fetch fails. -/
def envFetchFail : Env := { envBase with fetchOk := fun _ => false }

/-- Same world, but the cover text does not parse as a float. -/
def envExc : Env := { envBase with floatOf := fun _ => none }

/-- Same world, but gcloud is missing. -/
def envOff : Env := { envBase with gcloudAvailable := false }

/-- A concrete candidate folder URI, dated 2025-10-10 (inside the window of
2025-10-12), and its region code. -/
def pastaW : String :=
  "gs://gcp-public-data-sentinel-2/L2/tiles/23/K/RT/S2B_MSIL2A_20251010T131239_N0511_R138_T23KRT_20251010T160530.SAFE/"

def codW : Codigo := ⟨"23", "K", "RT"⟩

/-- Witness for C1: with the window of 2025-10-12, a fresh local tree and a
returned cover value, a cover of exactly 30.0 triggers the copy, while a
cover of 30.1 does not and logs the rejection. -/
theorem c1_cloud_gate_witness :
    (Effect.copyCmd pastaW (basePath codW) ∈ candidateStep envBase codW pastaW) ∧
    (Effect.copyCmd pastaW (basePath codW) ∉ candidateStep envReject codW pastaW) ∧
    (Effect.logRejectCover (nomePasta pastaW) (301 / 10) ∈
      candidateStep envReject codW pastaW) := by
  have hA := c1_cloud_gate envBase codW pastaW "20251010" 30
    (by decide) (by decide) rfl rfl
  have hR := c1_cloud_gate envReject codW pastaW "20251010" (301 / 10)
    (by decide) (by decide) rfl rfl
  refine ⟨hA.1.mpr (by norm_num), ?_, hR.2 (by norm_num)⟩
  intro hmem
  have := hR.1.mp hmem
  norm_num at this

/-- Witness for C3: with the concrete world (same on both runs), the second
run's trace contains no copy invocation. -/
theorem c3_idempotent_skip_witness :
    Effect.copyCmd "gs://x" "y" ∉ mainTrace envBase := by
  have h := c3_idempotent_skip envBase envBase rfl rfl rfl rfl rfl
    (fun _ h => h)
    (by
      intro cg hcg pasta hp s t hc
      simp [folders, get_available_safe_folders, envBase] at hp)
  exact h.2 "gs://x" "y"

/-- A listed folder whose name carries no `_(\d{8})T` date. -/
def pastaBad : String :=
  "gs://gcp-public-data-sentinel-2/L2/tiles/23/K/RT/weird_folder.SAFE/"

/-- Claim C5 (code bug): a non-zero listing exit does not yield an empty
candidate list with processing continuing — the `CalledProcessError` handler
at src/main.py line 84 raises `AttributeError` from `e.stderr.decode` before
the benign-marker test and its logs, and the call at line 177 sits in the
region loop outside any `try`, so the exception aborts `main` and every
remaining region.  Evaluated here with the first configured region's listing
failing with stderr "boom" (which does not contain the benign marker): the
listing raises, no listing warning is logged, a later configured region is
never processed and the completion log never happens.  The per-candidate
containment the claim also asserts does hold: a candidate whose cover text
makes `float(...)` raise is caught and logged, shown at a concrete input. -/
theorem c5_listing_crash :
    ((get_available_safe_folders envBase (uriBase ⟨"23", "K", "NQ"⟩)).1 =
      .error .attributeError ∧
     (get_available_safe_folders envBase (uriBase ⟨"23", "K", "NQ"⟩)).2 =
       [.logListing (uriBase ⟨"23", "K", "NQ"⟩),
        .listCmd (uriBase ⟨"23", "K", "NQ"⟩)] ∧
     Effect.logRegion "23" "K" "RT" ∉ mainTrace envBase ∧
     Effect.logFinished ∉ mainTrace envBase) ∧
    Effect.logCandidateError pastaW ∈ candidateStep envExc codW pastaW := by
  refine ⟨⟨rfl, rfl, by decide, by decide⟩, by decide⟩

/-- Same world, but the fetched document fails to parse as XML. -/
def envParseFail : Env := { envBase with parsedDoc := fun _ => none }

/-- A metadata document containing none of the candidate cloud-cover tags. -/
def docNoTag : Xml :=
  .node "n1:Level-2A_User_Product" none
    (.cons (.node "SOME_OTHER_FIELD" (some "1.0") .nil) .nil)

/-- Same world, but the fetched document carries no cloud-cover tag. -/
def envNoTag : Env := { envBase with parsedDoc := fun _ => some docNoTag }

/-- Claim C7 (code bug): the parse-failure and tag-not-found arms behave as
the claim says — absent result and cause-specific log — but on a failed
metadata fetch the `CalledProcessError` handler at src/main.py line 152
raises `AttributeError` from `e.stderr.decode` (the fetch ran with
`text=True`, so `e.stderr` is a `str`) before its `logging.error` and
`return None` lines: `get_cloud_cover` raises (after the `finally` cleanup)
instead of returning an absent result, and no fetch-failure message is
logged.  Each arm is evaluated at a concrete input. -/
theorem c7_fetch_failure_raises :
    ((get_cloud_cover envFetchFail pastaW).result = .error .attributeError ∧
     (get_cloud_cover envFetchFail pastaW).effects =
       [.logChecking (pastaW ++ metadata_filename),
        .fetchMetaCmd (pastaW ++ metadata_filename)] ∧
     (get_cloud_cover envFetchFail pastaW).tempExists = false) ∧
    ((get_cloud_cover envParseFail pastaW).result = .ok none ∧
     Effect.logParseFail ∈ (get_cloud_cover envParseFail pastaW).effects) ∧
    ((get_cloud_cover envNoTag pastaW).result = .ok none ∧
     Effect.logNoTagFound ∈ (get_cloud_cover envNoTag pastaW).effects) := by
  refine ⟨⟨rfl, rfl, rfl⟩, ⟨rfl, by decide⟩, ⟨rfl, by decide⟩⟩

/-- Witness for C4: a dateless folder name is skipped with no effects. -/
theorem c4_date_filter_skip_witness :
    candidateStep envBase codW pastaBad = [] :=
  c4_date_filter_skip envBase codW pastaBad (Or.inl (by decide))

/-- Witness for C6: the nested `Cloud_Coverage_Assessment` value (30.0) wins
over the top-level decoy `CLOUDY_PIXEL_PERCENTAGE` (77.0). -/
theorem c6_tag_priority_witness :
    (get_cloud_cover envBase pastaW).result = .ok (some 30) :=
  (c6_tag_priority envBase pastaW (docCover "30.0") rfl rfl).1
    (.node "Cloud_Coverage_Assessment" (some "30.0") .nil) "30.0" 30 rfl rfl rfl

/-- Witness for C10: with gcloud missing, the aborted run still created the
two directories, and nothing else happened. -/
theorem c10_module_load_effects_witness :
    programTrace envOff =
      [.makedirs "logs", .makedirs "Output_GCS", .checkGcloud,
       .logGcloudMissing] :=
  (c10_module_load_effects envOff).2 rfl

/-- Counterexample for C9 as stated: a candidate inside the Date Window whose
measured cover (99.0) is rejected by the Selection Filter nevertheless has its
region directory created — the `makedirs` happens before the existence check
and the cloud-cover gate, not "only upon acceptance". -/
theorem c9_counterexample :
    Effect.makedirs (basePath codW) ∈ candidateStep envHigh codW pastaW ∧
    Effect.logRejectCover (nomePasta pastaW) 99 ∈ candidateStep envHigh codW pastaW ∧
    Effect.copyCmd pastaW (basePath codW) ∉ candidateStep envHigh codW pastaW := by
  refine ⟨?_, ?_, ?_⟩ <;> decide
